import Mathlib

/-!
Shallow embedding of `src/golang-service/client/dummyclient.go`
(sewelol/sgx-decryption-service).

Byte strings are `List Nat` (Go `[]byte`). The crypto and encoding library
collaborators that the client calls (`crypto/sha256`, `crypto/rsa` signature
verification, `encoding/base64`, `encoding/pem`, `x509.ParsePKIXPublicKey`,
and the `DecryptRecord` RPC) are passed in as explicit function parameters,
while everything the client itself computes — `strings.Split`, `encoding/hex`
decoding, the `copy` into a zeroed 32-byte array, Go map insertion/lookup,
the control flow including `panic` / `log.Fatal` behavior — is embedded
concretely from the source.
-/

namespace SgxClient

/-- Go `[]byte`: a list of byte values. -/
abbrev Bytes := List Nat

/-- Fuel-driven helper for `bitLen`: halves `n` until it reaches zero. The
fuel argument only bounds the recursion depth; `n` itself is always enough. -/
def bitLenAux : Nat → Nat → Nat
  | 0, _ => 0
  | fuel + 1, n => if n = 0 then 0 else bitLenAux fuel (n / 2) + 1

/-- Bit length of a natural number, as Go `math/big.Int.BitLen`
(the minimal number of binary digits; 0 for 0). -/
def bitLen (n : Nat) : Nat := bitLenAux n n

/-- Go `rsa.PublicKey`: modulus N and exponent E. -/
structure RSAPub where
  n : Nat
  e : Nat
deriving DecidableEq, Repr

/-- Key size in bits, as Go `pub.N.BitLen()`. -/
def RSAPub.bits (k : RSAPub) : Nat := bitLen k.n

/-- Result of `x509.ParsePKIXPublicKey` on a DER payload that parses
successfully: either an RSA public key or a key of some other supported
type (e.g. ECDSA). -/
inductive ParsedKey
  | rsa (k : RSAPub)
  | nonRSA
deriving DecidableEq, Repr

/-- The Go type assertion `pub.(*rsa.PublicKey)` with the error ignored
(`rsaEncPub, _ := ...`, dummyclient.go:70-71): a non-RSA key yields `none`
(a nil pointer in Go). -/
def ParsedKey.toRSA : ParsedKey → Option RSAPub
  | .rsa k => some k
  | .nonRSA => none

/-- Outcome of the key-import block (dummyclient.go:57-71). The two `err…`
constructors are the error taxonomy of the design spec (`MalformedKey`,
`UnsupportedKeyType`); they are declared so that their unreachability in the
code can be stated, and no code path produces them. -/
inductive KeyImportOutcome
  | panicNilDeref
  | panicParse (msg : Bytes)
  | errMalformedKey
  | errUnsupportedKeyType
  | keys (enc ver : Option RSAPub)
deriving DecidableEq, Repr

/-- Key import as performed at dummyclient.go:57-71: `pem.Decode` on both
inputs with the second return value discarded, then `x509.ParsePKIXPublicKey`
on `encBlock.Bytes` and `verBlock.Bytes` (an explicit `panic` on parse error,
a nil-pointer dereference panic when the PEM framing was absent), then
unchecked type assertions to `*rsa.PublicKey`.

`pemDecode` models `pem.Decode` (returning the block's DER bytes, or `none`
when no PEM block is found) and `parsePKIX` models `x509.ParsePKIXPublicKey`. -/
def importKeys (pemDecode : Bytes → Option Bytes)
    (parsePKIX : Bytes → Except Bytes ParsedKey)
    (encPEM verPEM : Bytes) : KeyImportOutcome :=
  match pemDecode encPEM with
  | none => .panicNilDeref
  | some encDER =>
    match parsePKIX encDER with
    | .error m => .panicParse m
    | .ok encPub =>
      match pemDecode verPEM with
      | none => .panicNilDeref
      | some verDER =>
        match parsePKIX verDER with
        | .error m => .panicParse m
        | .ok verPub => .keys encPub.toRSA verPub.toRSA

/-- The `GetRootTreeHash` response (message fields `Rth`, `Nonce`, `Sig`). -/
structure RTHResponse where
  rth : Bytes
  nonce : Bytes
  sig : Bytes
deriving DecidableEq, Repr

/-- The nonce the client sends with its `GetRootTreeHash` request,
`[]byte("aaaaaaaaa")` (dummyclient.go:44): nine bytes 0x61. -/
def clientNonce : Bytes := List.replicate 9 97

/-- Root-tree-hash verification at dummyclient.go:112-115:
`h := sha256.Sum256(append(rth.Rth, rth.Nonce...))` followed by
`rsa.VerifyPKCS1v15(rsaVerPub, crypto.SHA256, h[:], rth.Sig)`. Returns
whether verification succeeded. `sha` models `sha256.Sum256` and
`rsaVerify` models PKCS#1 v1.5 signature verification under the given key.
Note the returned nonce is used as-is: it is never compared with
`clientNonce`. -/
def verifyRTH (sha : Bytes → Bytes) (rsaVerify : RSAPub → Bytes → Bytes → Bool)
    (verKey : RSAPub) (r : RTHResponse) : Bool :=
  rsaVerify verKey (sha (r.rth ++ r.nonce)) r.sig

/-- Accumulator for `goSplit`: splits off a chunk at every separator byte. -/
def goSplitAux (sep : Nat) : List Nat → List Nat → List (List Nat)
  | [], acc => [acc.reverse]
  | c :: cs, acc =>
    if c = sep then acc.reverse :: goSplitAux sep cs []
    else goSplitAux sep cs (c :: acc)

/-- Go `strings.Split(s, sep)` for a single-byte separator, on the byte
representation of the string: always returns at least one (possibly empty)
field. -/
def goSplit (sep : Nat) (s : List Nat) : List (List Nat) :=
  goSplitAux sep s []

/-- Go `encoding/hex.fromHexChar`: the value of one hex digit byte, or
`none` for an invalid byte. -/
def fromHexChar (c : Nat) : Option Nat :=
  if 48 ≤ c ∧ c ≤ 57 then some (c - 48)
  else if 97 ≤ c ∧ c ≤ 102 then some (c - 97 + 10)
  else if 65 ≤ c ∧ c ≤ 70 then some (c - 65 + 10)
  else none

/-- Go `encoding/hex.Decode` semantics, as used by `hex.DecodeString`:
decode full two-digit pairs until an invalid byte or an odd trailing digit;
return the bytes decoded before the error together with an error flag
(`true` when `InvalidByteError` or `ErrLength` would be returned). -/
def goHexDecode : List Nat → Bytes × Bool
  | [] => ([], false)
  | a :: rest =>
    match rest with
    | [] => ([], true)
    | b :: rest' =>
      match fromHexChar a, fromHexChar b with
      | some x, some y =>
        let p := goHexDecode rest'
        ((x * 16 + y) :: p.1, p.2)
      | _, _ => ([], true)

/-- `ctSum := [32]byte{}; copy(ctSum[:], ctSumSlice)` (dummyclient.go:167-170):
the first `min(len, 32)` bytes of the slice, right-padded with zero bytes to
exactly 32 bytes. -/
def copyTo32 (bs : Bytes) : Bytes :=
  bs.take 32 ++ List.replicate (32 - bs.length) 0

/-- Go map assignment `m[k] = v` on an association list: overwrites the
existing entry for `k`, otherwise appends. -/
def insertA (k v : Bytes) : List (Bytes × Bytes) → List (Bytes × Bytes)
  | [] => [(k, v)]
  | q :: t => if q.1 = k then (k, v) :: t else q :: insertA k v t

/-- Go map read `m[k]` on an association list (`none` when absent; the Go
code then gets the zero value `nil`). -/
def lookupA (k : Bytes) : List (Bytes × Bytes) → Option Bytes
  | [] => none
  | q :: t => if q.1 = k then some q.2 else lookupA k t

/-- How the records.csv scan (dummyclient.go:131-146) can terminate the
process: `line[1]` panics when a line has no comma; `log.Fatal(err)` exits
when base64 decoding fails. Either way no index reaches the caller. -/
inductive LoadErr
  | panicIndex
  | fatalB64
deriving DecidableEq, Repr

/-- The records.csv loop (dummyclient.go:131-142) with accumulator: for each
line, split on `","`, base64-decode field 1, `log.Fatal` on decode error,
else insert the ciphertext under the key `sha256(ct)` that the loop computes
itself. `b64` models `base64.StdEncoding.DecodeString`'s error outcome. -/
def loadCtDBAux (b64 : Bytes → Except Unit Bytes) (sha : Bytes → Bytes)
    (acc : List (Bytes × Bytes)) :
    List (List Nat) → Except LoadErr (List (Bytes × Bytes))
  | [] => .ok acc
  | l :: ls =>
    let fields := goSplit 44 l
    if fields.length < 2 then .error .panicIndex
    else
      match b64 (fields.getD 1 []) with
      | .error _ => .error .fatalB64
      | .ok ct => loadCtDBAux b64 sha (insertA (sha ct) ct acc) ls

/-- Loading the ciphertext index from the lines of records.csv
(dummyclient.go:121-146). -/
def loadCtDB (b64 : Bytes → Except Unit Bytes) (sha : Bytes → Bytes)
    (lines : List (List Nat)) : Except LoadErr (List (Bytes × Bytes)) :=
  loadCtDBAux b64 sha [] lines

/-- Decidable equality for `Except`, needed to evaluate traces on concrete
inputs. -/
instance {ε α : Type} [DecidableEq ε] [DecidableEq α] : DecidableEq (Except ε α) := by
  intro x y
  cases x <;> cases y
  case error.error a b =>
    exact if h : a = b then .isTrue (by rw [h]) else .isFalse (by simp [h])
  case error.ok a b => exact .isFalse (by simp)
  case ok.error a b => exact .isFalse (by simp)
  case ok.ok a b =>
    exact if h : a = b then .isTrue (by rw [h]) else .isFalse (by simp [h])

/-- What one iteration of the records_proofs.csv loop produces.
`panicIndex` is the out-of-range panic on `line[1]`/`line[2]` when a line
has fewer than three space-separated fields; `sent` records the
`DecryptRecord` call that was issued (digest key used for the lookup,
ciphertext sent, both proof tokens, and the RPC result). `malformedRecord`
is the design spec's `ProofRecordMalformed` outcome, declared so that its
unreachability in the code can be stated; no code path produces it. -/
inductive LineOutcome
  | panicIndex
  | malformedRecord
  | sent (digest ct : Bytes) (pop poe : Bytes) (result : Except Unit Bytes)
deriving DecidableEq, Repr

/-- One line of the proof loop (dummyclient.go:161-183): split on `" "`,
panic if fields 1 or 2 are out of range, hex-decode field 0 with the error
value discarded, `copy` the decoded bytes into a zeroed 32-byte array, look
the result up in the ciphertext index (`nil`, here `[]`, when absent) and
call `DecryptRecord` with that ciphertext and the two proof tokens.
`oracle` models the `DecryptRecord` RPC (ciphertext, proof-of-presence,
proof-of-extension). -/
def processProofLine (oracle : Bytes → Bytes → Bytes → Except Unit Bytes)
    (db : List (Bytes × Bytes)) (l : List Nat) : LineOutcome :=
  let fields := goSplit 32 l
  if fields.length < 3 then .panicIndex
  else
    let pop := fields.getD 1 []
    let poe := fields.getD 2 []
    let digest := copyTo32 (goHexDecode (fields.getD 0 [])).1
    let ct := (lookupA digest db).getD []
    .sent digest ct pop poe (oracle ct pop poe)

/-- The records_proofs.csv scan (dummyclient.go:160-184): lines processed in
order; an RPC error is only logged (`log.Printf`) and the loop continues,
but an out-of-range panic terminates the process, so nothing after it is
processed. -/
def processProofLines (oracle : Bytes → Bytes → Bytes → Except Unit Bytes)
    (db : List (Bytes × Bytes)) : List (List Nat) → List LineOutcome
  | [] => []
  | l :: ls =>
    match processProofLine oracle db l with
    | .panicIndex => [.panicIndex]
    | o => o :: processProofLines oracle db ls

/-- Observable trace of the client session from RTH verification onward:
the verification outcome (only logged by the code), the ciphertext index
that was built, and the per-proof-line outcomes. -/
structure SessionTrace where
  verifyOK : Bool
  db : List (Bytes × Bytes)
  outcomes : List LineOutcome
deriving DecidableEq, Repr

/-- dummyclient.go:112-188, the part of `main` from RTH verification through
the proof loop (key import and the local encryption self-test precede this
region; the `rsaSpecTest` block is compiled out by the constant `false`).
The verification error is only logged — control flow does not branch on it —
then records.csv is loaded (fatal on error) and every proof line issues a
`DecryptRecord` call. -/
def clientSession (sha : Bytes → Bytes) (rsaVerify : RSAPub → Bytes → Bytes → Bool)
    (verKey : RSAPub) (r : RTHResponse)
    (b64 : Bytes → Except Unit Bytes) (ctLines : List (List Nat))
    (oracle : Bytes → Bytes → Bytes → Except Unit Bytes)
    (proofLines : List (List Nat)) : Except LoadErr SessionTrace :=
  let vOK := verifyRTH sha rsaVerify verKey r
  match loadCtDB b64 sha ctLines with
  | .error e => .error e
  | .ok db => .ok ⟨vOK, db, processProofLines oracle db proofLines⟩

/-! ### Helper lemmas shared by the claim theorems -/

/-- Unfolding equation for one records.csv iteration. -/
theorem loadCtDBAux_cons (b64 : Bytes → Except Unit Bytes) (sha : Bytes → Bytes)
    (acc : List (Bytes × Bytes)) (l : List Nat) (ls : List (List Nat)) :
    loadCtDBAux b64 sha acc (l :: ls)
      = if (goSplit 44 l).length < 2 then .error .panicIndex
        else match b64 ((goSplit 44 l).getD 1 []) with
          | .error _ => .error .fatalB64
          | .ok ct => loadCtDBAux b64 sha (insertA (sha ct) ct acc) ls := rfl

/-- An entry of `insertA k v db` is the new pair or one of the old entries. -/
theorem mem_insertA {k v : Bytes} {db : List (Bytes × Bytes)} {p : Bytes × Bytes}
    (h : p ∈ insertA k v db) : p = (k, v) ∨ p ∈ db := by
  induction db with
  | nil => simpa [insertA] using h
  | cons q t ih =>
    rw [insertA] at h
    by_cases hq : q.1 = k
    · rw [if_pos hq] at h
      rcases List.mem_cons.mp h with h | h
      · exact Or.inl h
      · exact Or.inr (List.mem_cons_of_mem _ h)
    · rw [if_neg hq] at h
      rcases List.mem_cons.mp h with h | h
      · exact Or.inr (List.mem_cons.mpr (Or.inl h))
      · rcases ih h with h' | h'
        · exact Or.inl h'
        · exact Or.inr (List.mem_cons_of_mem _ h')

/-- Every key of the index built by the records.csv loop is the hash the
loop computed from the stored ciphertext, provided the accumulator already
satisfies this. -/
theorem loadCtDBAux_keys (b64 : Bytes → Except Unit Bytes) (sha : Bytes → Bytes) :
    ∀ (ls : List (List Nat)) (acc db : List (Bytes × Bytes)),
      (∀ p ∈ acc, p.1 = sha p.2) →
      loadCtDBAux b64 sha acc ls = .ok db →
      ∀ p ∈ db, p.1 = sha p.2 := by
  intro ls
  induction ls with
  | nil =>
    intro acc db hacc h
    rw [loadCtDBAux] at h
    cases h
    exact hacc
  | cons l t ih =>
    intro acc db hacc h
    rw [loadCtDBAux_cons] at h
    by_cases hf : (goSplit 44 l).length < 2
    · rw [if_pos hf] at h
      simp at h
    · rw [if_neg hf] at h
      cases hb : b64 ((goSplit 44 l).getD 1 []) with
      | error e =>
        rw [hb] at h
        simp at h
      | ok ct =>
        rw [hb] at h
        refine ih _ _ (fun p hp => ?_) h
        rcases mem_insertA hp with h' | h'
        · rw [h']
        · exact hacc p h'

/-- If any line of the records.csv scan fails base64 decoding, the whole
load ends in an error (a `log.Fatal`, or an earlier panic), whatever the
accumulator. -/
theorem loadCtDBAux_error_of_bad_line (b64 : Bytes → Except Unit Bytes)
    (sha : Bytes → Bytes) :
    ∀ (ls : List (List Nat)) (acc : List (Bytes × Bytes)) (l : List Nat),
      l ∈ ls → b64 ((goSplit 44 l).getD 1 []) = .error () →
      ∃ e, loadCtDBAux b64 sha acc ls = .error e := by
  intro ls
  induction ls with
  | nil =>
    intro acc l hl _
    exact absurd hl (List.not_mem_nil l)
  | cons x t ih =>
    intro acc l hl he
    rw [loadCtDBAux_cons]
    by_cases hf : (goSplit 44 x).length < 2
    · rw [if_pos hf]
      exact ⟨.panicIndex, rfl⟩
    · rw [if_neg hf]
      rcases List.mem_cons.mp hl with hx | hx
    -- the offending line is the head: its decode fails now
      · subst hx
        rw [he]
        exact ⟨.fatalB64, rfl⟩
      · cases hb : b64 ((goSplit 44 x).getD 1 []) with
        | error e => exact ⟨.fatalB64, rfl⟩
        | ok ct => exact ih _ l hx he

/-- A well-formed proof line (at least three fields) produces exactly the
`sent` outcome built from its fields. -/
theorem processProofLine_eq_sent (oracle : Bytes → Bytes → Bytes → Except Unit Bytes)
    (db : List (Bytes × Bytes)) (l : List Nat)
    (h : ¬ (goSplit 32 l).length < 3) :
    processProofLine oracle db l
      = .sent (copyTo32 (goHexDecode ((goSplit 32 l).getD 0 [])).1)
          ((lookupA (copyTo32 (goHexDecode ((goSplit 32 l).getD 0 [])).1) db).getD [])
          ((goSplit 32 l).getD 1 []) ((goSplit 32 l).getD 2 [])
          (oracle ((lookupA (copyTo32 (goHexDecode ((goSplit 32 l).getD 0 [])).1) db).getD [])
            ((goSplit 32 l).getD 1 []) ((goSplit 32 l).getD 2 [])) := by
  simp only [processProofLine]
  rw [if_neg h]

/-- The proof loop never produces the spec's `ProofRecordMalformed` outcome
for a single line. -/
theorem processProofLine_ne_malformed (oracle : Bytes → Bytes → Bytes → Except Unit Bytes)
    (db : List (Bytes × Bytes)) (l : List Nat) :
    processProofLine oracle db l ≠ .malformedRecord := by
  by_cases h : (goSplit 32 l).length < 3
  · simp only [processProofLine]
    rw [if_pos h]
    simp
  · rw [processProofLine_eq_sent oracle db l h]
    simp

/-- A well-formed head line does not panic, so the scan continues on the
tail. -/
theorem processProofLines_cons_sent (oracle : Bytes → Bytes → Bytes → Except Unit Bytes)
    (db : List (Bytes × Bytes)) (l : List Nat) (ls : List (List Nat))
    (h : ¬ (goSplit 32 l).length < 3) :
    processProofLines oracle db (l :: ls)
      = processProofLine oracle db l :: processProofLines oracle db ls := by
  rw [processProofLines, processProofLine_eq_sent oracle db l h]

/-! ### Claim C1 -/

/-- C1 counterexample: a session in which root-commitment signature
verification fails (`verifyOK = false`, the model of `SignatureInvalid`)
still issues a `DecryptRecord` request for the proof line — the trace
contains a `sent` outcome. The claim that no DecryptRecord request is
issued after a failed verification is false of the code. -/
theorem c1_counterexample :
    clientSession (fun _ => []) (fun _ _ _ => false) ⟨1, 1⟩ ⟨[], clientNonce, []⟩
        (fun _ => .ok []) [] (fun _ _ _ => .ok [1]) [[48, 48, 32, 112, 32, 113]]
      = .ok ⟨false, [], [.sent (List.replicate 32 0) [] [112] [113] (.ok [1])]⟩ := by
  decide

/-- C1 (amended): root-commitment verification failure does not gate the
session at all — the verification result is only logged, and the ciphertext
index and the sequence of `DecryptRecord` calls are identical whatever the
signature check returns (the remaining trace is independent of the
verification collaborator). -/
theorem c1_requests_independent_of_verification
    (sha : Bytes → Bytes) (rv1 rv2 : RSAPub → Bytes → Bytes → Bool)
    (verKey : RSAPub) (r : RTHResponse) (b64 : Bytes → Except Unit Bytes)
    (ctLines : List (List Nat)) (oracle : Bytes → Bytes → Bytes → Except Unit Bytes)
    (proofLines : List (List Nat)) :
    Except.map SessionTrace.outcomes
        (clientSession sha rv1 verKey r b64 ctLines oracle proofLines)
      = Except.map SessionTrace.outcomes
          (clientSession sha rv2 verKey r b64 ctLines oracle proofLines) := by
  unfold clientSession
  cases loadCtDB b64 sha ctLines <;> rfl

/-! ### Claim C2 -/

/-- C2 counterexample: a commitment whose nonce `[98]` differs bytewise
from the expected nonce the client sent (`clientNonce`, nine bytes 0x61)
passes verification whenever the signature check accepts — the session
records `verifyOK = true` and no failure of any kind. The claim that such
commitments fail with `StaleOrForgedNonce` is false of the code. -/
theorem c2_counterexample :
    [98] ≠ clientNonce ∧
    clientSession (fun _ => []) (fun _ _ _ => true) ⟨1, 1⟩ ⟨[], [98], []⟩
        (fun _ => .ok []) [] (fun _ _ _ => .ok []) []
      = .ok ⟨true, [], []⟩ := by
  decide

/-- C2 (amended): the client performs no freshness comparison at all — the
returned nonce is never compared with `clientNonce`, and verification
succeeds for a mismatched nonce exactly when the signature over
`sha256(rootHash ++ returnedNonce)` verifies. -/
theorem c2_no_freshness_check (sha : Bytes → Bytes)
    (rsaVerify : RSAPub → Bytes → Bytes → Bool) (verKey : RSAPub)
    (r : RTHResponse) (_hn : r.nonce ≠ clientNonce)
    (hs : rsaVerify verKey (sha (r.rth ++ r.nonce)) r.sig = true) :
    verifyRTH sha rsaVerify verKey r = true := by
  simpa [verifyRTH] using hs

/-- C2 witness: concrete instance of `c2_no_freshness_check` with a stale
nonce and an accepting signature check. -/
theorem c2_witness :
    verifyRTH (fun _ => []) (fun _ _ _ => true) ⟨1, 1⟩ ⟨[], [98], []⟩ = true :=
  c2_no_freshness_check (fun _ => []) (fun _ _ _ => true) ⟨1, 1⟩ ⟨[], [98], []⟩
    (by decide) rfl

/-! ### Claim C3 -/

/-- C3 counterexample: with an empty ciphertext index, the digest of the
proof line `"00 p q"` has no matching index entry (`lookupA` is `none`),
yet reconciliation is not a no-op: a `DecryptRecord` request is constructed
(with the nil ciphertext `[]`) and an outcome is produced for that digest.
The claim that no request is constructed and no outcome produced is false
of the code. -/
theorem c3_counterexample :
    lookupA (List.replicate 32 0) [] = none ∧
    processProofLines (fun _ _ _ => .error ()) [] [[48, 48, 32, 112, 32, 113]]
      = [.sent (List.replicate 32 0) [] [112] [113] (.error ())] := by
  decide

/-- C3 (amended): a proof-ledger entry whose digest has no matching
ciphertext-index entry is not skipped: the Go map read yields the zero
value `nil` (here `[]`), a `DecryptRecord` request carrying that empty
ciphertext and both proof tokens is still issued, and an outcome for the
digest is still produced, after which processing continues with the
remaining lines. -/
theorem c3_unmatched_digest_still_sent
    (oracle : Bytes → Bytes → Bytes → Except Unit Bytes)
    (db : List (Bytes × Bytes)) (l : List Nat) (ls : List (List Nat))
    (h3 : ¬ (goSplit 32 l).length < 3)
    (hn : lookupA (copyTo32 (goHexDecode ((goSplit 32 l).getD 0 [])).1) db = none) :
    processProofLines oracle db (l :: ls)
      = .sent (copyTo32 (goHexDecode ((goSplit 32 l).getD 0 [])).1) []
          ((goSplit 32 l).getD 1 []) ((goSplit 32 l).getD 2 [])
          (oracle [] ((goSplit 32 l).getD 1 []) ((goSplit 32 l).getD 2 []))
        :: processProofLines oracle db ls := by
  rw [processProofLines_cons_sent oracle db l ls h3,
    processProofLine_eq_sent oracle db l h3, hn]
  rfl

/-- C3 witness: concrete instance of `c3_unmatched_digest_still_sent` —
empty index, proof line `"00 p q"`, an oracle that would answer `[7]`. -/
theorem c3_witness :
    processProofLines (fun _ _ _ => .ok [7]) [] [[48, 48, 32, 112, 32, 113]]
      = [.sent (copyTo32 (goHexDecode (([[48, 48], [112], [113]] : List (List Nat)).getD 0 [])).1)
          [] [112] [113] (.ok [7])] :=
  c3_unmatched_digest_still_sent (fun _ _ _ => .ok [7]) [] [48, 48, 32, 112, 32, 113] []
    (by decide) (by decide)

/-! ### Claim C4 -/

/-- C4 counterexample: the proof file `["x", "00 p q"]` has a first line
with a single field. Loading neither fails with a per-record
`ProofRecordMalformed` nor continues with the remaining lines: the
out-of-range panic aborts the whole scan, and the valid second line is
never processed. The claim of per-record recovery is false of the code. -/
theorem c4_counterexample :
    processProofLines (fun _ _ _ => .ok []) [] [[120], [48, 48, 32, 112, 32, 113]]
      = [.panicIndex] := by
  decide

/-- C4 (amended): a proof line with fewer than three space-separated fields
panics (`line[1]`/`line[2]` out of range) and aborts the entire scan — no
later line is processed; and no code path ever produces the spec's
`ProofRecordMalformed` outcome (malformed hex in particular is silently
ignored, its error value being discarded). -/
theorem c4_short_line_aborts (oracle : Bytes → Bytes → Bytes → Except Unit Bytes)
    (db : List (Bytes × Bytes)) (l : List Nat) (ls : List (List Nat))
    (h : (goSplit 32 l).length < 3) :
    processProofLines oracle db (l :: ls) = [.panicIndex] ∧
    ∀ lines, LineOutcome.malformedRecord ∉ processProofLines oracle db lines := by
  constructor
  · rw [processProofLines]
    have hp : processProofLine oracle db l = .panicIndex := by
      simp only [processProofLine]
      rw [if_pos h]
    rw [hp]
  · intro lines
    induction lines with
    | nil => simp [processProofLines]
    | cons x t ih =>
      rw [processProofLines]
      cases hx : processProofLine oracle db x with
      | panicIndex => simp
      | malformedRecord => exact absurd hx (processProofLine_ne_malformed oracle db x)
      | sent d c p q r =>
        simp only [List.mem_cons]
        rintro (habs | habs)
        · exact LineOutcome.noConfusion habs
        · exact ih habs

/-- C4 witness: concrete instance of `c4_short_line_aborts` on the
single-field line `"x"` followed by a valid line. -/
theorem c4_witness :
    processProofLines (fun _ _ _ => .error ()) [] [[120], [48, 48, 32, 112, 32, 113]]
      = [.panicIndex] ∧
    ∀ lines, LineOutcome.malformedRecord
      ∉ processProofLines (fun _ _ _ => .error ()) [] lines :=
  c4_short_line_aborts (fun _ _ _ => .error ()) [] [120] [[48, 48, 32, 112, 32, 113]]
    (by decide)

/-! ### Claim C5 -/

/-- C5 counterexample: key import accepts a 12-bit RSA key (far below the
claimed 2048-bit threshold) and returns it unchanged; and a DER payload
parsing to a non-RSA key does not fail with `UnsupportedKeyType` — the
unchecked type assertion just yields nil keys. The claim that weak keys are
rejected and non-RSA payloads fail with `UnsupportedKeyType` is false of
the code. -/
theorem c5_counterexample :
    (RSAPub.mk 3233 17).bits < 2048 ∧
    importKeys (fun b => some b) (fun _ => .ok (.rsa ⟨3233, 17⟩)) [1] [2]
      = .keys (some ⟨3233, 17⟩) (some ⟨3233, 17⟩) ∧
    importKeys (fun b => some b) (fun _ => .ok .nonRSA) [1] [2]
      = .keys none none ∧
    importKeys (fun b => some b) (fun _ => .ok .nonRSA) [1] [2]
      ≠ .errUnsupportedKeyType := by
  decide

/-- C5 (amended): key import performs no strength or type policy check:
whenever both PEM blocks decode and both DER payloads parse, import returns
whatever keys were parsed — an RSA key of any size is accepted as-is, and a
non-RSA key becomes a nil (`none`) key via the unchecked type assertion
rather than an `UnsupportedKeyType` error. -/
theorem c5_no_strength_check (pemDecode : Bytes → Option Bytes)
    (parsePKIX : Bytes → Except Bytes ParsedKey) (encPEM verPEM encDER verDER : Bytes)
    (k1 k2 : ParsedKey)
    (h1 : pemDecode encPEM = some encDER) (h2 : parsePKIX encDER = .ok k1)
    (h3 : pemDecode verPEM = some verDER) (h4 : parsePKIX verDER = .ok k2) :
    importKeys pemDecode parsePKIX encPEM verPEM = .keys k1.toRSA k2.toRSA := by
  simp only [importKeys, h1, h2, h3, h4]

/-- C5 witness: concrete instance of `c5_no_strength_check` importing a
tiny RSA key for both slots. -/
theorem c5_witness :
    importKeys (fun b => some b) (fun _ => .ok (.rsa ⟨3233, 17⟩)) [1] [2]
      = .keys (ParsedKey.rsa ⟨3233, 17⟩).toRSA (ParsedKey.rsa ⟨3233, 17⟩).toRSA :=
  c5_no_strength_check (fun b => some b) (fun _ => .ok (.rsa ⟨3233, 17⟩))
    [1] [2] [1] [2] (.rsa ⟨3233, 17⟩) (.rsa ⟨3233, 17⟩) rfl rfl rfl rfl

/-! ### Claim C6 -/

/-- C6: ciphertext-index loading is all-or-nothing — if any input line's
second field fails base64 decoding, the whole load ends in an error
(`log.Fatal`, modelled as `fatalB64`, or an earlier panic), and no partial
index is handed back to the caller (`loadCtDB` returns no `.ok` value). -/
theorem c6_b64_failure_fatal (b64 : Bytes → Except Unit Bytes) (sha : Bytes → Bytes)
    (lines : List (List Nat)) (l : List Nat) (hl : l ∈ lines)
    (he : b64 ((goSplit 44 l).getD 1 []) = .error ()) :
    ∃ e, loadCtDB b64 sha lines = .error e :=
  loadCtDBAux_error_of_bad_line b64 sha lines [] l hl he

/-- C6 witness: concrete instance of `c6_b64_failure_fatal` — a one-line
file whose second field (empty, the line has no comma) fails decoding. -/
theorem c6_witness :
    ∃ e, loadCtDB (fun _ => .error ()) (fun _ => []) [[97]] = .error e :=
  c6_b64_failure_fatal (fun _ => .error ()) (fun _ => []) [[97]] [97]
    (by decide) rfl

/-! ### Claim C7 -/

/-- On a batch of well-formed lines the scan equals the independent map of
the per-line processing. -/
theorem processProofLines_eq_map (oracle : Bytes → Bytes → Bytes → Except Unit Bytes)
    (db : List (Bytes × Bytes)) :
    ∀ lines : List (List Nat), (∀ l ∈ lines, ¬ (goSplit 32 l).length < 3) →
      processProofLines oracle db lines = lines.map (processProofLine oracle db) := by
  intro lines
  induction lines with
  | nil => intro _; rfl
  | cons l t ih =>
    intro h
    rw [processProofLines_cons_sent oracle db l t (h l (List.mem_cons_self l t)),
      List.map_cons, ih (fun x hx => h x (List.mem_cons_of_mem l hx))]

/-- C7: per-item isolation in the decrypt loop — for a batch of well-formed
lines, the outcome of each line is computed independently of every other
line's oracle result (the trace is the map of the per-line function over
the batch), and exactly one outcome is produced per line; in particular an
oracle failure (an `.error` result, the model of `OracleRejected` /
`TransportError`) is recorded in that item's `sent` outcome and does not
abort the rest of the batch. -/
theorem c7_per_item_isolation (oracle : Bytes → Bytes → Bytes → Except Unit Bytes)
    (db : List (Bytes × Bytes)) (lines : List (List Nat))
    (h : ∀ l ∈ lines, ¬ (goSplit 32 l).length < 3) :
    processProofLines oracle db lines = lines.map (processProofLine oracle db) ∧
    (processProofLines oracle db lines).length = lines.length := by
  have hmap := processProofLines_eq_map oracle db lines h
  exact ⟨hmap, by rw [hmap, List.length_map]⟩

/-- C7 witness: concrete instance of `c7_per_item_isolation` — two valid
lines with an oracle rejecting every request; both outcomes are produced. -/
theorem c7_witness :
    processProofLines (fun _ _ _ => .error ()) []
        [[48, 48, 32, 112, 32, 113], [48, 49, 32, 112, 32, 113]]
      = ([[48, 48, 32, 112, 32, 113], [48, 49, 32, 112, 32, 113]] : List (List Nat)).map
          (processProofLine (fun _ _ _ => .error ()) []) ∧
    (processProofLines (fun _ _ _ => .error ()) []
        [[48, 48, 32, 112, 32, 113], [48, 49, 32, 112, 32, 113]]).length
      = ([[48, 48, 32, 112, 32, 113], [48, 49, 32, 112, 32, 113]] : List (List Nat)).length :=
  c7_per_item_isolation (fun _ _ _ => .error ()) []
    [[48, 48, 32, 112, 32, 113], [48, 49, 32, 112, 32, 113]] (by decide)

/-! ### Claim C8 -/

/-- C8: whenever the session completes, the logged verification outcome is
exactly the PKCS#1 v1.5 signature check (`rsaVerify`) of
`sha256(rth ++ nonce)` — the digest over the concatenation of the root
hash and the returned nonce — under the session's verification key; and
every key of the ciphertext index it built is the sha256 the index computed
itself from the stored ciphertext, never a supplied label. -/
theorem c8_digest_computation (sha : Bytes → Bytes)
    (rsaVerify : RSAPub → Bytes → Bytes → Bool) (verKey : RSAPub) (r : RTHResponse)
    (b64 : Bytes → Except Unit Bytes) (ctLines : List (List Nat))
    (oracle : Bytes → Bytes → Bytes → Except Unit Bytes)
    (proofLines : List (List Nat)) (t : SessionTrace)
    (h : clientSession sha rsaVerify verKey r b64 ctLines oracle proofLines = .ok t) :
    t.verifyOK = rsaVerify verKey (sha (r.rth ++ r.nonce)) r.sig ∧
    ∀ p ∈ t.db, p.1 = sha p.2 := by
  simp only [clientSession] at h
  cases hdb : loadCtDB b64 sha ctLines with
  | error e =>
    rw [hdb] at h
    simp at h
  | ok db =>
    rw [hdb] at h
    simp only [Except.ok.injEq] at h
    subst h
    exact ⟨rfl, loadCtDBAux_keys b64 sha ctLines [] db (by simp) hdb⟩

/-- C8 witness: concrete instance of `c8_digest_computation` — one
records.csv line `"0,1"`, a constant hash `[7]`, a decoder returning `[3]`;
the session succeeds and the single index key equals the computed hash. -/
theorem c8_witness :
    (SessionTrace.mk true [([7], [3])] []).verifyOK
      = (fun (_ : RSAPub) (_ _ : Bytes) => true) ⟨1, 1⟩
          ((fun (_ : Bytes) => ([7] : Bytes))
            ((RTHResponse.mk [] [] []).rth ++ (RTHResponse.mk [] [] []).nonce))
          (RTHResponse.mk [] [] []).sig ∧
    ∀ p ∈ (SessionTrace.mk true [([7], [3])] []).db,
      p.1 = (fun (_ : Bytes) => ([7] : Bytes)) p.2 :=
  c8_digest_computation (fun _ => [7]) (fun _ _ _ => true) ⟨1, 1⟩ ⟨[], [], []⟩
    (fun _ => .ok [3]) [[48, 44, 49]] (fun _ _ _ => .ok []) []
    ⟨true, [([7], [3])], []⟩ (by decide)

/-! ### Claim C9 -/

/-- C9: when a proof line's hex digest field decodes to fewer than 32 bytes
(which includes every malformed-hex line, since the discarded error comes
with the prefix decoded so far), the key used for the ciphertext-index
lookup is that decoded prefix right-padded with zero bytes to exactly 32
bytes, the line still produces a `sent` outcome keyed by it (never a
malformed-record report), and the scan continues with the remaining
lines. -/
theorem c9_short_hex_zero_padded (oracle : Bytes → Bytes → Bytes → Except Unit Bytes)
    (db : List (Bytes × Bytes)) (l : List Nat) (ls : List (List Nat))
    (h3 : ¬ (goSplit 32 l).length < 3)
    (hlen : (goHexDecode ((goSplit 32 l).getD 0 [])).1.length < 32) :
    copyTo32 (goHexDecode ((goSplit 32 l).getD 0 [])).1
      = (goHexDecode ((goSplit 32 l).getD 0 [])).1
        ++ List.replicate (32 - (goHexDecode ((goSplit 32 l).getD 0 [])).1.length) 0 ∧
    processProofLines oracle db (l :: ls)
      = processProofLine oracle db l :: processProofLines oracle db ls ∧
    ∃ ct res, processProofLine oracle db l
      = .sent (copyTo32 (goHexDecode ((goSplit 32 l).getD 0 [])).1) ct
          ((goSplit 32 l).getD 1 []) ((goSplit 32 l).getD 2 []) res := by
  refine ⟨?_, processProofLines_cons_sent oracle db l ls h3, ?_⟩
  · unfold copyTo32
    rw [List.take_of_length_le (le_of_lt hlen)]
  · exact ⟨_, _, processProofLine_eq_sent oracle db l h3⟩

/-- C9 witness: concrete instance of `c9_short_hex_zero_padded` on the line
`"zz p q"`, whose digest field has invalid hex: the decoded prefix is empty
and the lookup key is 32 zero bytes. -/
theorem c9_witness :
    copyTo32 (goHexDecode ((goSplit 32 [122, 122, 32, 112, 32, 113]).getD 0 [])).1
      = (goHexDecode ((goSplit 32 [122, 122, 32, 112, 32, 113]).getD 0 [])).1
        ++ List.replicate
            (32 - (goHexDecode ((goSplit 32 [122, 122, 32, 112, 32, 113]).getD 0 [])).1.length) 0 ∧
    processProofLines (fun _ _ _ => .ok []) [] [[122, 122, 32, 112, 32, 113]]
      = processProofLine (fun _ _ _ => .ok []) [] [122, 122, 32, 112, 32, 113]
        :: processProofLines (fun _ _ _ => .ok []) [] [] ∧
    ∃ ct res, processProofLine (fun _ _ _ => .ok []) [] [122, 122, 32, 112, 32, 113]
      = .sent (copyTo32 (goHexDecode ((goSplit 32 [122, 122, 32, 112, 32, 113]).getD 0 [])).1) ct
          ((goSplit 32 [122, 122, 32, 112, 32, 113]).getD 1 [])
          ((goSplit 32 [122, 122, 32, 112, 32, 113]).getD 2 []) res :=
  c9_short_hex_zero_padded (fun _ _ _ => .ok []) [] [122, 122, 32, 112, 32, 113] []
    (by decide) (by decide)

/-! ### Claim C10 -/

/-- C10: key import never produces the spec's typed `MalformedKey` result —
when `pem.Decode` finds no PEM block on either input, its unchecked result
is dereferenced and the program terminates abnormally (`panicNilDeref`, or,
for the verification key, possibly the earlier explicit parse panic); the
`MalformedKey` outcome is unreachable for every input. -/
theorem c10_no_malformed_key (pemDecode : Bytes → Option Bytes)
    (parsePKIX : Bytes → Except Bytes ParsedKey) (encPEM verPEM : Bytes) :
    importKeys pemDecode parsePKIX encPEM verPEM ≠ .errMalformedKey ∧
    (pemDecode encPEM = none →
      importKeys pemDecode parsePKIX encPEM verPEM = .panicNilDeref) ∧
    (pemDecode verPEM = none →
      importKeys pemDecode parsePKIX encPEM verPEM = .panicNilDeref ∨
      ∃ m, importKeys pemDecode parsePKIX encPEM verPEM = .panicParse m) := by
  cases h1 : pemDecode encPEM with
  | none => simp [importKeys, h1]
  | some encDER =>
    cases h2 : parsePKIX encDER with
    | error m => simp [importKeys, h1, h2]
    | ok k1 =>
      cases h3 : pemDecode verPEM with
      | none => simp [importKeys, h1, h2, h3]
      | some verDER =>
        cases h4 : parsePKIX verDER with
        | error m => simp [importKeys, h1, h2, h3, h4]
        | ok k2 => simp [importKeys, h1, h2, h3, h4]

/-- C10 witness: concrete instance of `c10_no_malformed_key` — with no PEM
block on the encryption-key input, import ends in the nil-dereference
panic. -/
theorem c10_witness :
    importKeys (fun _ => none) (fun _ => .ok .nonRSA) [] [] = .panicNilDeref :=
  (c10_no_malformed_key (fun _ => none) (fun _ => .ok .nonRSA) [] []).2.1 rfl

end SgxClient
